import Mathlib

set_option linter.unusedVariables false

/-!
Verification development for the go-saga execution coordinator
(`saga.go`, `storage/storage.go`, `storage/memory/memory.go`).

The Go source is shallowly embedded: the in-memory storage backend becomes a
record holding a list of opaque log records; the saga instance becomes a state
record threaded explicitly through `ExecSub` / `EndSaga` / `Abort` /
`compensate`; the `panic` exits of the source are modelled by `Option`
(`none` = the operation panicked); the mutual recursion between `Abort` and a
failing compensation is made total with an explicit fuel parameter (`none`
also covers fuel exhaustion, which corresponds to the unbounded recursive
abort of the source).  Reflective `Call` invocations are additionally recorded
in a ghost `trace` field so that statements about *which* actions and
compensations were invoked, in which order and with which arguments, can be
made; the trace has no influence on control flow.
-/

namespace GoSaga

/-! ## Storage layer (`storage/storage.go`, `storage/memory/memory.go`) -/

/-- The in-memory storage backend (`memStorage` in `storage/memory/memory.go`):
a bare list of log records.  The record type is a parameter: the Go backend
stores opaque `string`s and never inspects them. -/
structure MemStorage (α : Type) where
  data : List α
deriving DecidableEq, Repr

/-- `NewMemStorage` creates an empty in-memory log storage. -/
def NewMemStorage {α : Type} : MemStorage α := { data := [] }

/-- `AppendLog` appends one record; the in-memory backend never fails. -/
def AppendLog {α : Type} (s : MemStorage α) (d : α) : Except String (MemStorage α) :=
  .ok { data := s.data ++ [d] }

/-- `Lookup` returns all records in append order; never fails. -/
def Lookup {α : Type} (s : MemStorage α) : Except String (List α) :=
  .ok s.data

/-- `Cleanup` resets the record list to empty; never fails. -/
def Cleanup {α : Type} (s : MemStorage α) : Except String (MemStorage α) :=
  .ok { data := [] }

/-- `Close` releases resources; a no-op for the in-memory backend. -/
def Close {α : Type} (s : MemStorage α) : Except String Unit :=
  .ok ()

/-- `LastLog` returns `s.data[len(s.data)-1]`, or the distinct
`"LogData is empty"` error when the stream holds no records. -/
def LastLog {α : Type} (s : MemStorage α) : Except String α :=
  let sizeOfLog := s.data.length
  if h : sizeOfLog = 0 then
    .error "LogData is empty"
  else
    .ok (s.data.get ⟨sizeOfLog - 1, Nat.sub_lt (Nat.pos_of_ne_zero h) Nat.one_pos⟩)

/-! ## Log entry model and coordinator (`saga.go` and the spec's data model) -/

/-- The seven log entry kinds of the saga log. -/
inductive LogType where
  | SagaStart
  | ActionStart
  | ActionEnd
  | SagaAbort
  | CompensateStart
  | CompensateEnd
  | SagaEnd
deriving DecidableEq, Repr

/-- One saga log entry (`Log` in the Go source): its transition kind, the
sub-transaction id (empty for saga-level entries), the timestamp (modelled as
a monotone counter, see `SagaState.clock`), and the marshalled call arguments
(present only on `ActionStart`, empty otherwise).  `V` is the type of one
marshalled argument value. -/
structure Log (V : Type) where
  type : LogType
  subTxID : String
  time : Nat
  params : List V
deriving DecidableEq, Repr

/-- One value returned by a reflective `Call`: the saga layer only ever asks
whether the returned value `IsNil` (a nil `error` means success). -/
structure RetValue where
  isNil : Bool
deriving DecidableEq, Repr

/-- `isReturnError` (`saga.go`): a call result signals failure iff it consists
of exactly one returned value and that value is non-nil. -/
def isReturnError (result : List RetValue) : Bool :=
  match result with
  | [r] => !r.isNil
  | _ => false

/-- One sub-transaction definition: its id, its action and its compensation.
A callable takes the ambient context (`C`), the positional argument list
(`List V`) and the external world (`W`, the mutable environment the business
operations act on, e.g. the account map of the tests) and returns the list of
values produced by the reflective `Call` together with the updated world. -/
structure SubTxDef (C V W : Type) where
  subTxID : String
  action : C → List V → W → List RetValue × W
  compensate : C → List V → W → List RetValue × W

/-- The execution coordinator: the registry of sub-transaction definitions. -/
structure ExecutionCoordinator (C V W : Type) where
  subTxDefs : List (SubTxDef C V W)

/-- Modelled from the spec: `MustFindSubTxDef` (defined in the coordinator
file, which is not among the provided sources) resolves a sub-transaction id
in the registry and fails fatally (`none`) when the id is unregistered. -/
def MustFindSubTxDef {C V W : Type} (sec : ExecutionCoordinator C V W)
    (subTxID : String) : Option (SubTxDef C V W) :=
  sec.subTxDefs.find? (fun d => d.subTxID == subTxID)

/-- Modelled from the spec: `MarshalParam` (defined in the params file, which
is not among the provided sources) encodes an argument list into the log's
parameter representation; §4.5 of the spec requires the encoding to
round-trip exactly, so it is modelled as the identity on the argument list. -/
def MarshalParam {C V W : Type} (sec : ExecutionCoordinator C V W)
    (args : List V) : List V :=
  args

/-- Modelled from the spec: `UnmarshalParam` decodes a logged parameter
representation back into the argument list; the inverse of `MarshalParam`,
hence also the identity. -/
def UnmarshalParam {C V W : Type} (sec : ExecutionCoordinator C V W)
    (params : List V) : List V :=
  params

/-- The storage provider kind (`LogProvider` in `saga.go`, a string type). -/
def LogProvider := String
deriving instance DecidableEq for LogProvider

/-- `Memory LogProvider = "memory"`. -/
def Memory : LogProvider := "memory"

/-- `Kafka LogProvider = "kafka"`. -/
def Kafka : LogProvider := "kafka"

/-- `LogPrefix` (`saga.go`). -/
def LogPrefix : String := "saga_"

/-- `GetLogStorage` (`saga.go`): the `Memory` kind yields a fresh in-memory
storage; every other kind hits the `panic("unsupported provider")` default
branch, modelled as `none`. -/
def GetLogStorage {α : Type} (_type : LogProvider) : Option (MemStorage α) :=
  if _type = Memory then some NewMemStorage else none

/-! ## Saga instance state and its observable events -/

/-- Ghost record of one reflective `Call`: either an action invocation or a
compensation invocation, with the sub-transaction id and the argument list the
callable received (without the leading context value). -/
inductive Event (V : Type) where
  | actionCall (subTxID : String) (args : List V)
  | compCall (subTxID : String) (args : List V)
deriving DecidableEq, Repr

/-- The mutable state of one saga instance: the Go `Saga` struct's `id`,
`logID` and `storage` fields, plus the external world `W` the business
callables act on, a ghost `trace` of every reflective `Call` performed so far
and a ghost monotone `clock` standing in for `time.Now()`.  The immutable
`sec` (coordinator) and `context` fields of the Go struct are passed as
parameters to the operations instead. -/
structure SagaState (V W : Type) where
  id : Nat
  logID : String
  storage : MemStorage (Log V)
  world : W
  trace : List (Event V)
  clock : Nat
deriving DecidableEq, Repr

section SagaOps

variable {C V W : Type}

/-- Append one entry through the storage layer.  `AppendLog` on the in-memory
backend always returns `.ok` (see `AppendLog`), so the
`panic("Add logger Failure")` guards of the source are unreachable and the
append is modelled as the direct state update; the ghost clock advances by
one per appended entry. -/
def appendEntry (s : SagaState V W) (e : Log V) : SagaState V W :=
  { s with storage := { data := s.storage.data ++ [e] }, clock := s.clock + 1 }

/-- Ghost instrumentation: record one reflective `Call` in the trace.  Not
part of the Go state and without influence on control flow. -/
def recordEvent (s : SagaState V W) (ev : Event V) : SagaState V W :=
  { s with trace := s.trace ++ [ev] }

variable (sec : ExecutionCoordinator C V W) (ctx : C)

/-- `Saga.compensate` (`saga.go`), parameterised by the recursive `Abort` it
invokes when the compensation itself fails: append `CompensateStart`, run the
registered compensation with context + unmarshalled arguments, on failure
recursively abort, then append `CompensateEnd` unconditionally.  The
`MustFindSubTxDef` panic and a panicking / fuel-exhausted nested abort give
`none`. -/
def compensate (abortF : SagaState V W → Option (SagaState V W))
    (s : SagaState V W) (tlog : Log V) : Option (SagaState V W) :=
  let s1 := appendEntry s
    { type := .CompensateStart, subTxID := tlog.subTxID, time := s.clock, params := [] }
  let args := UnmarshalParam sec tlog.params
  match MustFindSubTxDef sec tlog.subTxID with
  | none => none
  | some subDef =>
    let s2 := recordEvent s1 (.compCall tlog.subTxID args)
    let r := subDef.compensate ctx args s2.world
    let s3 := { s2 with world := r.snd }
    if isReturnError r.fst then
      match abortF s3 with
      | none => none
      | some s4 =>
        some (appendEntry s4
          { type := .CompensateEnd, subTxID := tlog.subTxID, time := s4.clock, params := [] })
    else
      some (appendEntry s3
        { type := .CompensateEnd, subTxID := tlog.subTxID, time := s3.clock, params := [] })

/-- The reverse scan of `Saga.Abort` (`saga.go`): walk the snapshot of the log
(already reversed here), compensating every `ActionStart` entry. -/
def compensateAll (abortF : SagaState V W → Option (SagaState V W)) :
    SagaState V W → List (Log V) → Option (SagaState V W)
  | s, [] => some s
  | s, e :: rest =>
    if e.type = .ActionStart then
      match compensate sec ctx abortF s e with
      | none => none
      | some s' => compensateAll abortF s' rest
    else
      compensateAll abortF s rest

/-- `Saga.Abort` (`saga.go`): snapshot the log via `Lookup`, append a
`SagaAbort` entry, then scan the snapshot in reverse order and compensate
every `ActionStart` entry.  The unbounded mutual recursion with a failing
compensation is bounded by `fuel`; `none` covers both a panic and fuel
exhaustion. -/
def Abort : Nat → SagaState V W → Option (SagaState V W)
  | 0, _ => none
  | fuel + 1, s =>
    let logs := s.storage.data
    let s1 := appendEntry s
      { type := .SagaAbort, subTxID := "", time := s.clock, params := [] }
    compensateAll sec ctx (fun s0 => Abort fuel s0) s1 logs.reverse

/-- `Saga.ExecSub` (`saga.go`): resolve the definition (fatal if unknown),
append `ActionStart` with the marshalled arguments, invoke the action with
context + arguments, abort on failure (returning the post-abort saga), append
`ActionEnd` on success. -/
def ExecSub (fuel : Nat) (s : SagaState V W) (subTxID : String)
    (args : List V) : Option (SagaState V W) :=
  match MustFindSubTxDef sec subTxID with
  | none => none
  | some subTxDef =>
    let s1 := appendEntry s
      { type := .ActionStart, subTxID := subTxID, time := s.clock,
        params := MarshalParam sec args }
    let s2 := recordEvent s1 (.actionCall subTxID args)
    let r := subTxDef.action ctx args s2.world
    let s3 := { s2 with world := r.snd }
    if isReturnError r.fst then
      Abort sec ctx fuel s3
    else
      some (appendEntry s3
        { type := .ActionEnd, subTxID := subTxID, time := s3.clock, params := [] })

/-- `Saga.EndSaga` (`saga.go`): append a `SagaEnd` entry, then `Cleanup` the
log stream; a failing cleanup would panic (`none`), but the in-memory backend
never fails. -/
def EndSaga (s : SagaState V W) : Option (SagaState V W) :=
  let s1 := appendEntry s
    { type := .SagaEnd, subTxID := "", time := s.clock, params := [] }
  match Cleanup s1.storage with
  | .error _ => none
  | .ok st => some { s1 with storage := st }

/-- `Saga.startSaga` (`saga.go`): append the initial `SagaStart` entry. -/
def startSaga (s : SagaState V W) : SagaState V W :=
  appendEntry s { type := .SagaStart, subTxID := "", time := s.clock, params := [] }

/-- Modelled from the spec: `StartSaga` (defined in the coordinator file,
which is not among the provided sources) selects the storage backend by kind
— fatally (`none`) for an unsupported kind —, constructs the saga instance
bound to the coordinator and immediately persists a `SagaStart` entry.  `w0`
is the initial external world. -/
def StartSaga (sagaID : Nat) (provider : LogProvider) (w0 : W) :
    Option (SagaState V W) :=
  (GetLogStorage provider).map fun st =>
    startSaga
      { id := sagaID, logID := LogPrefix ++ toString sagaID, storage := st,
        world := w0, trace := [], clock := 0 }

end SagaOps

/-! ## Log-growth order

`Extends s s'` says `s'` was obtained from `s` by appending log entries and
trace events only: the saga layer never removes a log record except through
`EndSaga`'s `Cleanup`. -/

/-- State `s'` extends state `s`: its log and its trace are those of `s` with
entries appended at the tail. -/
def Extends {V W : Type} (s s' : SagaState V W) : Prop :=
  (∃ t, s'.storage.data = s.storage.data ++ t) ∧
  (∃ t, s'.trace = s.trace ++ t)

/-! ## Concrete fixtures

Small registries and saga states used to exercise the model on concrete
inputs (counterexamples and witnesses).  `okRV` is a returned nil error
(success), `badRV` a returned non-nil error (failure). -/

/-- A returned nil error: the call succeeded. -/
def okRV : RetValue := { isNil := true }

/-- A returned non-nil error: the call failed. -/
def badRV : RetValue := { isNil := false }

/-- Sub-transaction `"a"`: its action always fails, its compensation always
succeeds. -/
def aFailDef : SubTxDef Unit Nat Nat :=
  { subTxID := "a", action := fun _ _ w => ([badRV], w),
    compensate := fun _ _ w => ([okRV], w) }

/-- Sub-transaction `"b"`: action and compensation always succeed. -/
def bOkDef : SubTxDef Unit Nat Nat :=
  { subTxID := "b", action := fun _ _ w => ([okRV], w),
    compensate := fun _ _ w => ([okRV], w) }

/-- Registry with the failing `"a"` and the succeeding `"b"`. -/
def secAB : ExecutionCoordinator Unit Nat Nat :=
  { subTxDefs := [aFailDef, bOkDef] }

/-- A freshly started saga over the in-memory backend. -/
def c1s0 : Option (SagaState Nat Nat) := StartSaga 1 Memory 0

/-- The saga after `ExecSub "a"`, whose action fails and triggers `Abort`. -/
def c1s1 : Option (SagaState Nat Nat) :=
  c1s0.bind (fun s => ExecSub secAB () 5 s "a" [])

/-- A chained `ExecSub "b"` after the aborting `ExecSub "a"`. -/
def c1s2 : Option (SagaState Nat Nat) :=
  c1s1.bind (fun s => ExecSub secAB () 5 s "b" [7])

/-- A chained `EndSaga` after the aborting `ExecSub "a"`. -/
def c1end : Option (SagaState Nat Nat) := c1s1.bind EndSaga

/-- Sub-transaction `"a"` whose action and compensation always succeed. -/
def aOkDef : SubTxDef Unit Nat Nat :=
  { subTxID := "a", action := fun _ _ w => ([okRV], w),
    compensate := fun _ _ w => ([okRV], w) }

/-- Sub-transaction `"b"` whose compensation fails on its first invocation
(world counter `0`) and succeeds afterwards; the world counts its
invocations. -/
def bFlakyDef : SubTxDef Unit Nat Nat :=
  { subTxID := "b", action := fun _ _ w => ([okRV], w),
    compensate := fun _ _ w => (if w = 0 then [badRV] else [okRV], w + 1) }

/-- Registry with the reliable `"a"` and the once-failing compensation
`"b"`. -/
def secFlaky : ExecutionCoordinator Unit Nat Nat :=
  { subTxDefs := [aOkDef, bFlakyDef] }

/-- A saga whose log holds `ActionStart "a"` then `ActionStart "b"`, about to
abort with `"b"`'s compensation failing once. -/
def c2start : SagaState Nat Nat :=
  { id := 2, logID := "saga_2",
    storage := { data := [{ type := .ActionStart, subTxID := "a", time := 0, params := [] },
                          { type := .ActionStart, subTxID := "b", time := 1, params := [] }] },
    world := 0, trace := [], clock := 2 }

/-- The abort of `c2start` under `secFlaky`. -/
def c2res : Option (SagaState Nat Nat) := Abort secFlaky () 5 c2start

/-- A saga state holding the single entry `ActionStart "b"`, used to run
`compensate` directly against the once-failing compensation. -/
def c2wIn : SagaState Nat Nat :=
  { id := 5, logID := "saga_5",
    storage := { data := [{ type := .ActionStart, subTxID := "b", time := 0, params := [] }] },
    world := 0, trace := [], clock := 1 }

/-- The `ActionStart "b"` entry of `c2wIn`. -/
def c2wLog : Log Nat :=
  { type := .ActionStart, subTxID := "b", time := 0, params := [] }

/-- A saga log with two completed forward actions carrying parameters. -/
def c3in : SagaState Nat Nat :=
  { id := 3, logID := "saga_3",
    storage := { data := [{ type := .ActionStart, subTxID := "a", time := 0, params := [1, 2] },
                          { type := .ActionStart, subTxID := "b", time := 1, params := [3] }] },
    world := 0, trace := [], clock := 2 }

/-- A saga log with a single in-flight action (`ActionStart` without
`ActionEnd`). -/
def c4in : SagaState Nat Nat :=
  { id := 4, logID := "saga_4",
    storage := { data := [{ type := .ActionStart, subTxID := "a", time := 5, params := [9] }] },
    world := 0, trace := [], clock := 6 }

/-- Sub-transaction `"v"` whose callables return no values at all (a void
signature, like `PTest1` in the repository's tests). -/
def voidDef : SubTxDef Unit Nat Nat :=
  { subTxID := "v", action := fun _ _ w => ([], w),
    compensate := fun _ _ w => ([], w) }

/-- Registry holding only the void-signature sub-transaction. -/
def secV : ExecutionCoordinator Unit Nat Nat := { subTxDefs := [voidDef] }

/-- An empty-log saga state for exercising the void-signature `ExecSub`. -/
def sV : SagaState Nat Nat :=
  { id := 6, logID := "saga_6", storage := { data := [] },
    world := 0, trace := [], clock := 0 }

/-- A freshly started saga (only `SagaStart` logged), input of the aborting
`ExecSub "a"`. -/
def c1in : SagaState Nat Nat :=
  { id := 1, logID := "saga_1",
    storage := { data := [{ type := .SagaStart, subTxID := "", time := 0, params := [] }] },
    world := 0, trace := [], clock := 1 }

/-- The state produced by `ExecSub secAB () 5 c1in "a" []`: the action of
`"a"` failed, `Abort` ran and compensated it. -/
def c1out : SagaState Nat Nat :=
  { id := 1, logID := "saga_1",
    storage := { data :=
      [{ type := .SagaStart, subTxID := "", time := 0, params := [] },
       { type := .ActionStart, subTxID := "a", time := 1, params := [] },
       { type := .SagaAbort, subTxID := "", time := 2, params := [] },
       { type := .CompensateStart, subTxID := "a", time := 3, params := [] },
       { type := .CompensateEnd, subTxID := "a", time := 4, params := [] }] },
    world := 0,
    trace := [.actionCall "a" [], .compCall "a" []], clock := 5 }

/-- The state produced by running `compensate` on `c2wIn` with the
once-failing compensation of `"b"` and a nested `Abort` of fuel `3`. -/
def c2wOut : SagaState Nat Nat :=
  { id := 5, logID := "saga_5",
    storage := { data :=
      [{ type := .ActionStart, subTxID := "b", time := 0, params := [] },
       { type := .CompensateStart, subTxID := "b", time := 1, params := [] },
       { type := .SagaAbort, subTxID := "", time := 2, params := [] },
       { type := .CompensateStart, subTxID := "b", time := 3, params := [] },
       { type := .CompensateEnd, subTxID := "b", time := 4, params := [] },
       { type := .CompensateEnd, subTxID := "b", time := 5, params := [] }] },
    world := 2,
    trace := [.compCall "b" [], .compCall "b" []], clock := 6 }

/-- The state produced by `Abort secAB () 1 c4in`. -/
def c4out : SagaState Nat Nat :=
  { id := 4, logID := "saga_4",
    storage := { data :=
      [{ type := .ActionStart, subTxID := "a", time := 5, params := [9] },
       { type := .SagaAbort, subTxID := "", time := 6, params := [] },
       { type := .CompensateStart, subTxID := "a", time := 7, params := [] },
       { type := .CompensateEnd, subTxID := "a", time := 8, params := [] }] },
    world := 0, trace := [.compCall "a" [9]], clock := 9 }

/-- A saga log holding a single in-flight `ActionStart "b"` with no matching
`ActionEnd`. -/
def c5in : SagaState Nat Nat :=
  { id := 7, logID := "saga_7",
    storage := { data := [{ type := .ActionStart, subTxID := "b", time := 0, params := [4] }] },
    world := 0, trace := [], clock := 1 }

/-- The state produced by `Abort secAB () 1 c5in`. -/
def c5out : SagaState Nat Nat :=
  { id := 7, logID := "saga_7",
    storage := { data :=
      [{ type := .ActionStart, subTxID := "b", time := 0, params := [4] },
       { type := .SagaAbort, subTxID := "", time := 1, params := [] },
       { type := .CompensateStart, subTxID := "b", time := 2, params := [] },
       { type := .CompensateEnd, subTxID := "b", time := 3, params := [] }] },
    world := 0, trace := [.compCall "b" [4]], clock := 4 }

/-! ## Helper lemmas -/

section Lemmas

variable {C V W : Type}

@[simp]
theorem appendEntry_data (s : SagaState V W) (e : Log V) :
    (appendEntry s e).storage.data = s.storage.data ++ [e] := rfl

@[simp]
theorem appendEntry_trace (s : SagaState V W) (e : Log V) :
    (appendEntry s e).trace = s.trace := rfl

@[simp]
theorem appendEntry_world (s : SagaState V W) (e : Log V) :
    (appendEntry s e).world = s.world := rfl

@[simp]
theorem appendEntry_clock (s : SagaState V W) (e : Log V) :
    (appendEntry s e).clock = s.clock + 1 := rfl

@[simp]
theorem recordEvent_data (s : SagaState V W) (ev : Event V) :
    (recordEvent s ev).storage.data = s.storage.data := rfl

@[simp]
theorem recordEvent_trace (s : SagaState V W) (ev : Event V) :
    (recordEvent s ev).trace = s.trace ++ [ev] := rfl

@[simp]
theorem recordEvent_world (s : SagaState V W) (ev : Event V) :
    (recordEvent s ev).world = s.world := rfl

@[simp]
theorem recordEvent_clock (s : SagaState V W) (ev : Event V) :
    (recordEvent s ev).clock = s.clock := rfl

theorem extends_refl (s : SagaState V W) : Extends s s :=
  ⟨⟨[], by simp⟩, ⟨[], by simp⟩⟩

theorem extends_trans {s1 s2 s3 : SagaState V W}
    (h1 : Extends s1 s2) (h2 : Extends s2 s3) : Extends s1 s3 := by
  obtain ⟨⟨t1, h1d⟩, ⟨u1, h1t⟩⟩ := h1
  obtain ⟨⟨t2, h2d⟩, ⟨u2, h2t⟩⟩ := h2
  exact ⟨⟨t1 ++ t2, by rw [h2d, h1d, List.append_assoc]⟩,
         ⟨u1 ++ u2, by rw [h2t, h1t, List.append_assoc]⟩⟩

theorem appendEntry_extends (s : SagaState V W) (e : Log V) :
    Extends s (appendEntry s e) :=
  ⟨⟨[e], rfl⟩, ⟨[], by simp⟩⟩

theorem recordEvent_extends (s : SagaState V W) (ev : Event V) :
    Extends s (recordEvent s ev) :=
  ⟨⟨[], by simp⟩, ⟨[ev], rfl⟩⟩

theorem setWorld_extends (s : SagaState V W) (w : W) :
    Extends s { s with world := w } :=
  ⟨⟨[], by simp⟩, ⟨[], by simp⟩⟩

theorem Extends.mem_trace {s s' : SagaState V W} {ev : Event V}
    (h : Extends s s') (ha : ev ∈ s.trace) : ev ∈ s'.trace := by
  obtain ⟨-, t, ht⟩ := h
  rw [ht]
  exact List.mem_append_left _ ha

theorem Extends.mem_data {s s' : SagaState V W} {e : Log V}
    (h : Extends s s') (ha : e ∈ s.storage.data) : e ∈ s'.storage.data := by
  obtain ⟨⟨t, ht⟩, -⟩ := h
  rw [ht]
  exact List.mem_append_left _ ha

variable (sec : ExecutionCoordinator C V W) (ctx : C)

theorem compensate_extends (abortF : SagaState V W → Option (SagaState V W))
    (hab : ∀ s s', abortF s = some s' → Extends s s')
    (s : SagaState V W) (tlog : Log V) (s' : SagaState V W)
    (h : compensate sec ctx abortF s tlog = some s') : Extends s s' := by
  unfold compensate at h
  cases hfind : MustFindSubTxDef sec tlog.subTxID with
  | none => simp [hfind] at h
  | some subDef =>
    simp only [hfind] at h
    split at h
    · split at h
      · exact absurd h (by simp)
      · rename_i s4 hab4
        cases h
        exact extends_trans (extends_trans (extends_trans (extends_trans
          (appendEntry_extends _ _) (recordEvent_extends _ _))
          (setWorld_extends _ _)) (hab _ _ hab4)) (appendEntry_extends _ _)
    · cases h
      exact extends_trans (extends_trans (extends_trans
        (appendEntry_extends _ _) (recordEvent_extends _ _))
        (setWorld_extends _ _)) (appendEntry_extends _ _)

theorem compensateAll_extends (abortF : SagaState V W → Option (SagaState V W))
    (hab : ∀ s s', abortF s = some s' → Extends s s') :
    ∀ (es : List (Log V)) (s s' : SagaState V W),
      compensateAll sec ctx abortF s es = some s' → Extends s s' := by
  intro es
  induction es with
  | nil =>
    intro s s' h
    simp only [compensateAll] at h
    cases h
    exact extends_refl s
  | cons e rest ih =>
    intro s s' h
    simp only [compensateAll] at h
    split at h
    · cases hc : compensate sec ctx abortF s e with
      | none => rw [hc] at h; exact absurd h (by simp)
      | some s1 =>
        rw [hc] at h
        exact extends_trans (compensate_extends sec ctx abortF hab s e s1 hc)
          (ih s1 s' h)
    · exact ih s s' h

theorem Abort_extends :
    ∀ (fuel : Nat) (s s' : SagaState V W),
      Abort sec ctx fuel s = some s' → Extends s s' := by
  intro fuel
  induction fuel with
  | zero => intro s s' h; simp [Abort] at h
  | succ f ih =>
    intro s s' h
    simp only [Abort] at h
    exact extends_trans (appendEntry_extends _ _)
      (compensateAll_extends sec ctx _ (fun s0 s0' h0 => ih s0 s0' h0) _ _ _ h)

theorem compensate_records (abortF : SagaState V W → Option (SagaState V W))
    (hab : ∀ s s', abortF s = some s' → Extends s s')
    (s : SagaState V W) (tlog : Log V) (s' : SagaState V W)
    (h : compensate sec ctx abortF s tlog = some s') :
    Event.compCall tlog.subTxID (UnmarshalParam sec tlog.params) ∈ s'.trace := by
  have hbase : ∀ (y : SagaState V W) (ev : Event V), ev ∈ (recordEvent y ev).trace := by
    intro y ev; simp
  unfold compensate at h
  cases hfind : MustFindSubTxDef sec tlog.subTxID with
  | none => simp [hfind] at h
  | some subDef =>
    simp only [hfind] at h
    split at h
    · split at h
      · exact absurd h (by simp)
      · rename_i s4 hab4
        cases h
        exact ((extends_trans (setWorld_extends _ _) (extends_trans
          (hab _ _ hab4) (appendEntry_extends _ _)))).mem_trace (hbase _ _)
    · cases h
      exact ((extends_trans (setWorld_extends _ _)
        (appendEntry_extends _ _))).mem_trace (hbase _ _)

theorem compensateAll_records (abortF : SagaState V W → Option (SagaState V W))
    (hab : ∀ s s', abortF s = some s' → Extends s s') :
    ∀ (es : List (Log V)) (s s' : SagaState V W),
      compensateAll sec ctx abortF s es = some s' →
      ∀ e ∈ es, e.type = .ActionStart →
        Event.compCall e.subTxID (UnmarshalParam sec e.params) ∈ s'.trace := by
  intro es
  induction es with
  | nil => intro s s' h e he; exact absurd he (List.not_mem_nil e)
  | cons e0 rest ih =>
    intro s s' h e he ht
    simp only [compensateAll] at h
    split at h
    · cases hc : compensate sec ctx abortF s e0 with
      | none => rw [hc] at h; exact absurd h (by simp)
      | some s1 =>
        rw [hc] at h
        rcases List.mem_cons.mp he with rfl | hrest
        · exact (compensateAll_extends sec ctx abortF hab rest s1 s' h).mem_trace
            (compensate_records sec ctx abortF hab s e s1 hc)
        · exact ih s1 s' h e hrest ht
    · rename_i hne
      rcases List.mem_cons.mp he with rfl | hrest
      · exact absurd ht hne
      · exact ih s s' h e hrest ht

theorem Abort_records :
    ∀ (fuel : Nat) (s s' : SagaState V W),
      Abort sec ctx fuel s = some s' →
      ∀ e ∈ s.storage.data, e.type = .ActionStart →
        Event.compCall e.subTxID (UnmarshalParam sec e.params) ∈ s'.trace := by
  intro fuel
  cases fuel with
  | zero => intro s s' h; simp [Abort] at h
  | succ f =>
    intro s s' h e he ht
    simp only [Abort] at h
    exact compensateAll_records sec ctx _
      (fun s0 s0' h0 => Abort_extends sec ctx f s0 s0' h0)
      _ _ _ h e (by simpa using he) ht

theorem compensate_success (abortF : SagaState V W → Option (SagaState V W))
    (s : SagaState V W) (tlog : Log V) (d : SubTxDef C V W)
    (hd : MustFindSubTxDef sec tlog.subTxID = some d)
    (hs : isReturnError
      (d.compensate ctx (UnmarshalParam sec tlog.params) s.world).fst = false) :
    compensate sec ctx abortF s tlog = some
      { s with
        storage := { data := s.storage.data ++
          [{ type := .CompensateStart, subTxID := tlog.subTxID, time := s.clock, params := [] },
           { type := .CompensateEnd, subTxID := tlog.subTxID, time := s.clock + 1, params := [] }] },
        world := (d.compensate ctx (UnmarshalParam sec tlog.params) s.world).snd,
        trace := s.trace ++ [.compCall tlog.subTxID (UnmarshalParam sec tlog.params)],
        clock := s.clock + 2 } := by
  simp [compensate, hd, appendEntry, recordEvent, hs]

theorem compensateAll_success (abortF : SagaState V W → Option (SagaState V W))
    (hsucc : ∀ d ∈ sec.subTxDefs, ∀ args w,
      isReturnError (d.compensate ctx args w).fst = false) :
    ∀ (es : List (Log V)) (s : SagaState V W),
      (∀ e ∈ es, e.type = .ActionStart →
        (MustFindSubTxDef sec e.subTxID).isSome = true) →
      ∃ s', compensateAll sec ctx abortF s es = some s' ∧
        s'.trace = s.trace ++
          (es.filter (fun e => decide (e.type = LogType.ActionStart))).map
            (fun e => Event.compCall e.subTxID (UnmarshalParam sec e.params)) := by
  intro es
  induction es with
  | nil =>
    intro s hreg
    exact ⟨s, by simp [compensateAll], by simp⟩
  | cons e rest ih =>
    intro s hreg
    by_cases ht : e.type = .ActionStart
    · obtain ⟨d, hd⟩ := Option.isSome_iff_exists.mp
        (hreg e (List.mem_cons_self e rest) ht)
      have hdmem : d ∈ sec.subTxDefs := List.mem_of_find?_eq_some hd
      have hcomp := compensate_success sec ctx abortF s e d hd
        (hsucc d hdmem (UnmarshalParam sec e.params) s.world)
      obtain ⟨s', hall, htr⟩ := ih _ (fun e2 he2 ht2 => hreg e2 (List.mem_cons_of_mem e he2) ht2)
      refine ⟨s', ?_, ?_⟩
      · simp only [compensateAll, if_pos ht, hcomp]
        exact hall
      · rw [htr]
        simp [ht, List.append_assoc]
    · obtain ⟨s', hall, htr⟩ := ih s (fun e2 he2 ht2 => hreg e2 (List.mem_cons_of_mem e he2) ht2)
      refine ⟨s', ?_, ?_⟩
      · simp only [compensateAll, if_neg ht]
        exact hall
      · rw [htr]
        simp [ht]

theorem EndSaga_clears (s s' : SagaState V W) (h : EndSaga s = some s') :
    s'.storage.data = [] := by
  simp only [EndSaga, Cleanup] at h
  cases h
  rfl

theorem execSub_invokes_action (fuel : Nat) (s : SagaState V W)
    (subTxID : String) (args : List V) (d : SubTxDef C V W)
    (s' : SagaState V W) (hd : MustFindSubTxDef sec subTxID = some d)
    (h : ExecSub sec ctx fuel s subTxID args = some s') :
    Event.actionCall subTxID args ∈ s'.trace := by
  have hbase : ∀ (y : SagaState V W) (ev : Event V), ev ∈ (recordEvent y ev).trace := by
    intro y ev; simp
  unfold ExecSub at h
  simp only [hd] at h
  split at h
  · exact ((extends_trans (setWorld_extends _ _)
      (Abort_extends sec ctx fuel _ _ h))).mem_trace (hbase _ _)
  · cases h
    exact ((extends_trans (setWorld_extends _ _)
      (appendEntry_extends _ _))).mem_trace (hbase _ _)

theorem Abort_has_sagaAbort (fuel : Nat) (s s' : SagaState V W)
    (h : Abort sec ctx fuel s = some s') :
    ∃ tm, ({ type := .SagaAbort, subTxID := "", time := tm, params := [] } : Log V)
      ∈ s'.storage.data := by
  cases fuel with
  | zero => simp [Abort] at h
  | succ f =>
    simp only [Abort] at h
    refine ⟨s.clock, ?_⟩
    have hmem : ({ type := .SagaAbort, subTxID := "", time := s.clock, params := [] } : Log V)
        ∈ (appendEntry s
          { type := .SagaAbort, subTxID := "", time := s.clock, params := [] }).storage.data := by
      simp
    exact (compensateAll_extends sec ctx _
      (fun a b hh => Abort_extends sec ctx f a b hh) _ _ _ h).mem_data hmem

end Lemmas

/-! ## Claim theorems -/

/-- Claim C6: `EndSaga` first appends a `SagaEnd` entry and then clears the
log stream, so afterwards the log is empty and `Lookup` on the saga's storage
returns the empty sequence.  The returned state is exactly the `SagaEnd`-
appended state with its record list then reset. -/
theorem endSaga_appends_then_clears {V W : Type} (s : SagaState V W) :
    ∃ s', EndSaga s = some s'
      ∧ s' = { (appendEntry s
                { type := .SagaEnd, subTxID := "", time := s.clock, params := [] }) with
               storage := { data := [] } }
      ∧ s'.storage.data = []
      ∧ Lookup s'.storage = Except.ok ([] : List (Log V)) := by
  refine ⟨_, rfl, rfl, rfl, rfl⟩

/-- Claim C7: `Cleanup` on an already-empty log stream returns success and
leaves the log empty, and `Cleanup` composed with itself equals a single
`Cleanup`. -/
theorem cleanup_idempotent {α : Type} (st : MemStorage α) :
    (st.data = [] → Cleanup st = Except.ok st)
    ∧ Except.bind (Cleanup st) Cleanup = Cleanup st
    ∧ (∀ st2, Cleanup st = Except.ok st2 → st2.data = []) := by
  refine ⟨?_, rfl, ?_⟩
  · intro h
    cases st
    simp only [Cleanup] at *
    simp_all
  · intro st2 h
    cases h
    rfl

/-- Claim C7 witness: on the empty store, `Cleanup` succeeds returning the
empty store, and composing it with itself is the same as running it once. -/
theorem cleanup_idempotent_witness :
    Cleanup (NewMemStorage : MemStorage Nat) = Except.ok NewMemStorage
    ∧ Except.bind (Cleanup (NewMemStorage : MemStorage Nat)) Cleanup =
        Cleanup (NewMemStorage : MemStorage Nat) :=
  ⟨(cleanup_idempotent NewMemStorage).1 rfl, (cleanup_idempotent NewMemStorage).2.1⟩

/-- Claim C8: for the in-memory backend, `LastLog` returns the most recently
appended record whenever a record has been appended, and fails with the
distinct `"LogData is empty"` error when the stream has no records. -/
theorem lastLog_spec {α : Type} (st st2 : MemStorage α) (d : α) :
    (AppendLog st d = Except.ok st2 → LastLog st2 = Except.ok d)
    ∧ (st.data = [] → LastLog st = Except.error "LogData is empty") := by
  constructor
  · intro h
    simp only [AppendLog, Except.ok.injEq] at h
    subst h
    simp only [LastLog, List.length_append, List.length_singleton]
    split
    · omega
    · congr 1
      rw [List.get_eq_getElem]
      simp
  · intro h
    simp [LastLog, h]

/-- Claim C8 witness: appending `42` to the empty store makes `LastLog`
return `42`; on the empty store `LastLog` reports the empty-stream error. -/
theorem lastLog_spec_witness :
    (AppendLog (NewMemStorage : MemStorage Nat) 42 = Except.ok { data := [42] }
      → LastLog ({ data := [42] } : MemStorage Nat) = Except.ok 42)
    ∧ ((NewMemStorage : MemStorage Nat).data = [] →
        LastLog (NewMemStorage : MemStorage Nat) = Except.error "LogData is empty")
    ∧ LastLog ({ data := [42] } : MemStorage Nat) = Except.ok 42
    ∧ LastLog (NewMemStorage : MemStorage Nat) = Except.error "LogData is empty" := by
  have h := lastLog_spec (NewMemStorage : MemStorage Nat) { data := [42] } 42
  exact ⟨h.1, fun _ => h.2 rfl, h.1 rfl, h.2 rfl⟩

/-- Claim C9: selecting any storage backend kind other than the in-memory one
panics (`none`) in `GetLogStorage` instead of returning a storage handle. -/
theorem getLogStorage_unsupported {α : Type} (p : LogProvider) (h : p ≠ Memory) :
    GetLogStorage (α := α) p = none := by
  simp [GetLogStorage, h]

/-- Claim C9 witness: the `Kafka` kind differs from `Memory` and yields no
storage handle. -/
theorem getLogStorage_unsupported_witness :
    Kafka ≠ Memory ∧ GetLogStorage (α := Log Nat) Kafka = none :=
  ⟨by decide, getLogStorage_unsupported Kafka (by decide)⟩

/-- Claim C10: a call result is treated as a failure iff it consists of
exactly one returned value and that value is non-nil; consequently a
registered callable returning no values at all is always treated as success,
and its `ExecSub` appends `ActionStart` then `ActionEnd` and never triggers
`Abort` — the log grows by exactly those two entries. -/
theorem isReturnError_void_success {C V W : Type}
    (sec : ExecutionCoordinator C V W) (ctx : C) :
    (∀ result : List RetValue, isReturnError result = true ↔
      ∃ r, result = [r] ∧ r.isNil = false)
    ∧ (∀ (fuel : Nat) (s : SagaState V W) (subTxID : String) (args : List V)
        (d : SubTxDef C V W),
        MustFindSubTxDef sec subTxID = some d →
        (d.action ctx args s.world).fst = [] →
        ExecSub sec ctx fuel s subTxID args = some
          { s with
            storage := { data := s.storage.data ++
              [{ type := .ActionStart, subTxID := subTxID, time := s.clock,
                 params := MarshalParam sec args },
               { type := .ActionEnd, subTxID := subTxID, time := s.clock + 1,
                 params := [] }] },
            world := (d.action ctx args s.world).snd,
            trace := s.trace ++ [.actionCall subTxID args],
            clock := s.clock + 2 }) := by
  constructor
  · intro result
    rcases result with _ | ⟨r, _ | ⟨r2, rest⟩⟩ <;> simp [isReturnError]
  · intro fuel s subTxID args d hd hvoid
    simp [ExecSub, hd, appendEntry, recordEvent, hvoid, isReturnError]

/-- Claim C10 witness: the void-signature sub-transaction `"v"` runs to
`ActionEnd` without aborting. -/
theorem isReturnError_void_success_witness :
    MustFindSubTxDef secV "v" = some voidDef
    ∧ (voidDef.action () [] sV.world).fst = []
    ∧ ExecSub secV () 1 sV "v" [] = some
        { sV with
          storage := { data := sV.storage.data ++
            [{ type := .ActionStart, subTxID := "v", time := sV.clock,
               params := MarshalParam secV [] },
             { type := .ActionEnd, subTxID := "v", time := sV.clock + 1,
               params := [] }] },
          world := (voidDef.action () [] sV.world).snd,
          trace := sV.trace ++ [.actionCall "v" []],
          clock := sV.clock + 2 } :=
  ⟨rfl, rfl, (isReturnError_void_success secV ()).2 1 sV "v" [] voidDef rfl rfl⟩

/-- Claim C3: when `Abort` runs on a log whose `ActionStart` entries were
appended in some order and no compensation fails, the compensation of each of
those entries is invoked exactly once, in exactly the reverse of the append
order, each called with the parameters recorded on its own `ActionStart`
entry: the compensation-call trace appended by `Abort` is precisely the
reversed projection of the log's `ActionStart` entries. -/
theorem abort_compensates_reverse_once {C V W : Type}
    (sec : ExecutionCoordinator C V W) (ctx : C) (fuel : Nat) (s : SagaState V W)
    (hreg : ∀ e ∈ s.storage.data, e.type = .ActionStart →
      (MustFindSubTxDef sec e.subTxID).isSome = true)
    (hsucc : ∀ d ∈ sec.subTxDefs, ∀ args w,
      isReturnError (d.compensate ctx args w).fst = false) :
    ∃ s', Abort sec ctx (fuel + 1) s = some s' ∧
      s'.trace = s.trace ++
        ((s.storage.data.filter (fun e => decide (e.type = LogType.ActionStart))).reverse.map
          (fun e => Event.compCall e.subTxID (UnmarshalParam sec e.params))) := by
  obtain ⟨s', hall, htr⟩ := compensateAll_success sec ctx
    (fun s0 => Abort sec ctx fuel s0) hsucc s.storage.data.reverse
    (appendEntry s { type := .SagaAbort, subTxID := "", time := s.clock, params := [] })
    (fun e he ht => hreg e (List.mem_reverse.mp he) ht)
  refine ⟨s', ?_, ?_⟩
  · simp only [Abort]
    exact hall
  · rw [htr]
    simp [List.filter_reverse]

/-- Claim C3 witness: aborting a log with `ActionStart "a" [1,2]` then
`ActionStart "b" [3]` under all-succeeding compensations compensates `"b"`
first and `"a"` second, each with its recorded parameters. -/
theorem abort_compensates_reverse_once_witness :
    (∀ e ∈ c3in.storage.data, e.type = .ActionStart →
      (MustFindSubTxDef secAB e.subTxID).isSome = true)
    ∧ (∀ d ∈ secAB.subTxDefs, ∀ args w,
        isReturnError (d.compensate () args w).fst = false)
    ∧ ∃ s', Abort secAB () (0 + 1) c3in = some s' ∧
        s'.trace = c3in.trace ++
          ((c3in.storage.data.filter (fun e => decide (e.type = LogType.ActionStart))).reverse.map
            (fun e => Event.compCall e.subTxID (UnmarshalParam secAB e.params))) := by
  have hreg : ∀ e ∈ c3in.storage.data, e.type = .ActionStart →
      (MustFindSubTxDef secAB e.subTxID).isSome = true := by decide
  have hsucc : ∀ d ∈ secAB.subTxDefs, ∀ args w,
      isReturnError (d.compensate () args w).fst = false := by
    intro d hd args w
    simp only [secAB, List.mem_cons, List.not_mem_nil, or_false] at hd
    rcases hd with rfl | rfl <;> rfl
  exact ⟨hreg, hsucc, abort_compensates_reverse_once secAB () 0 c3in hreg hsucc⟩

/-- Claim C4: `Abort` does not clear the saga's log: every entry present
before the abort is still present (the log only grows, by appending at the
tail), and a `SagaAbort` entry has been appended. -/
theorem abort_appends_only {C V W : Type}
    (sec : ExecutionCoordinator C V W) (ctx : C) (fuel : Nat)
    (s s' : SagaState V W) (h : Abort sec ctx fuel s = some s') :
    (∃ t, s'.storage.data = s.storage.data ++ t)
    ∧ (∃ tm, ({ type := .SagaAbort, subTxID := "", time := tm, params := [] } : Log V)
        ∈ s'.storage.data) :=
  ⟨(Abort_extends sec ctx fuel s s' h).1, Abort_has_sagaAbort sec ctx fuel s s' h⟩

/-- Claim C4 witness: aborting the one-entry log `c4in` yields `c4out`, whose
log is the input log extended at the tail and contains a `SagaAbort` entry. -/
theorem abort_appends_only_witness :
    Abort secAB () 1 c4in = some c4out
    ∧ ((∃ t, c4out.storage.data = c4in.storage.data ++ t)
      ∧ (∃ tm, ({ type := .SagaAbort, subTxID := "", time := tm, params := [] } : Log Nat)
          ∈ c4out.storage.data)) :=
  ⟨by decide, abort_appends_only secAB () 1 c4in c4out (by decide)⟩

/-- Claim C5: an `ActionStart` entry with no matching `ActionEnd` (the action
never completed) is still compensated by `Abort`: the reverse scan matches on
`ActionStart` alone, so the in-flight sub-transaction's compensation is
invoked with the recorded parameters. -/
theorem abort_compensates_unfinished_action {C V W : Type}
    (sec : ExecutionCoordinator C V W) (ctx : C) (fuel : Nat)
    (s s' : SagaState V W) (e : Log V)
    (he : e ∈ s.storage.data) (ht : e.type = .ActionStart)
    (hnoend : ∀ e2 ∈ s.storage.data, ¬(e2.type = .ActionEnd ∧ e2.subTxID = e.subTxID))
    (h : Abort sec ctx fuel s = some s') :
    Event.compCall e.subTxID (UnmarshalParam sec e.params) ∈ s'.trace :=
  Abort_records sec ctx fuel s s' h e he ht

/-- Claim C5 witness: the log `c5in` holds `ActionStart "b"` with no
`ActionEnd`; `Abort` still invokes `"b"`'s compensation with the recorded
parameter list `[4]`. -/
theorem abort_compensates_unfinished_action_witness :
    ({ type := .ActionStart, subTxID := "b", time := 0, params := [4] } : Log Nat)
      ∈ c5in.storage.data
    ∧ (∀ e2 ∈ c5in.storage.data,
        ¬(e2.type = .ActionEnd ∧ e2.subTxID = "b"))
    ∧ Abort secAB () 1 c5in = some c5out
    ∧ Event.compCall "b" [4] ∈ c5out.trace := by
  refine ⟨by decide, by decide, by decide, ?_⟩
  exact abort_compensates_unfinished_action secAB () 1 c5in c5out
    { type := .ActionStart, subTxID := "b", time := 0, params := [4] }
    (by decide) (by decide) (by decide) (by decide)

/-- Claim C1 counterexample: the saga is plainly not treated as aborted after
an aborting `ExecSub`.  Starting a saga and running `ExecSub "a"` (whose
action fails, triggering `Abort`), a subsequent chained `ExecSub "b"` does
invoke `"b"`'s action (the claim says its action is never invoked), and a
subsequent chained `EndSaga` does clear the log (the claim says it is a no-op
that does not clear the log) — exactly the behaviour the repository's
`TestDepositFail` asserts. -/
theorem execSub_abort_guard_counterexample :
    c1s2.map (fun s => decide (Event.actionCall "b" [7] ∈ s.trace)) = some true
    ∧ c1end.map (fun s => s.storage.data) = some [] :=
  ⟨by decide, by decide⟩

/-- Claim C1 (amended): when an `ExecSub` action reports failure, `Abort` is
invoked (a `SagaAbort` entry is appended to the log) and `ExecSub` returns the
saga; but the saga is not marked aborted: a subsequent `EndSaga` is not a
no-op (it clears the log), and any subsequent chained `ExecSub` on a
registered id still invokes its action. -/
theorem execSub_failure_aborts_unguarded {C V W : Type}
    (sec : ExecutionCoordinator C V W) (ctx : C) (fuel : Nat)
    (s : SagaState V W) (subTxID : String) (args : List V)
    (d : SubTxDef C V W) (s' : SagaState V W)
    (hd : MustFindSubTxDef sec subTxID = some d)
    (hfail : isReturnError (d.action ctx args s.world).fst = true)
    (h : ExecSub sec ctx fuel s subTxID args = some s') :
    (∃ tm, ({ type := .SagaAbort, subTxID := "", time := tm, params := [] } : Log V)
        ∈ s'.storage.data)
    ∧ (∀ s'', EndSaga s' = some s'' → s''.storage.data = [])
    ∧ (∀ subTxID2 args2 (d2 : SubTxDef C V W) s'',
        MustFindSubTxDef sec subTxID2 = some d2 →
        ExecSub sec ctx fuel s' subTxID2 args2 = some s'' →
        Event.actionCall subTxID2 args2 ∈ s''.trace) := by
  refine ⟨?_, fun s'' h2 => EndSaga_clears s' s'' h2,
    fun subTxID2 args2 d2 s'' hd2 h2 =>
      execSub_invokes_action sec ctx fuel s' subTxID2 args2 d2 s'' hd2 h2⟩
  unfold ExecSub at h
  simp only [hd] at h
  split at h
  · exact Abort_has_sagaAbort sec ctx fuel _ s' h
  · rename_i hc
    exfalso
    apply hc
    simpa using hfail

/-- Claim C1 (amended) witness: the concrete aborting `ExecSub "a"` on
`c1in` returns `c1out`, which carries a `SagaAbort` entry, whose `EndSaga`
clears the log, and on which any further registered `ExecSub` still invokes
its action. -/
theorem execSub_failure_aborts_unguarded_witness :
    MustFindSubTxDef secAB "a" = some aFailDef
    ∧ isReturnError (aFailDef.action () [] c1in.world).fst = true
    ∧ ExecSub secAB () 5 c1in "a" [] = some c1out
    ∧ ((∃ tm, ({ type := .SagaAbort, subTxID := "", time := tm, params := [] } : Log Nat)
          ∈ c1out.storage.data)
      ∧ (∀ s'', EndSaga c1out = some s'' → s''.storage.data = [])
      ∧ (∀ subTxID2 args2 (d2 : SubTxDef Unit Nat Nat) s'',
          MustFindSubTxDef secAB subTxID2 = some d2 →
          ExecSub secAB () 5 c1out subTxID2 args2 = some s'' →
          Event.actionCall subTxID2 args2 ∈ s''.trace)) :=
  ⟨rfl, rfl, by decide,
    execSub_failure_aborts_unguarded secAB () 5 c1in "a" [] aFailDef c1out
      rfl rfl (by decide)⟩

/-- Claim C2 counterexample: abort `c2start` (log `ActionStart "a"` then
`ActionStart "b"`) under `secFlaky`, where `"b"`'s compensation fails once
then succeeds.  The compensation-call trace is `b, b, a, a`: sub-transaction
`"a"` is compensated twice although its first compensation succeeded inside
the nested abort (the claim says already-compensated entries are not
compensated again), and the log carries two `CompensateEnd` entries for `"b"`
although only one of `"b"`'s two compensation calls succeeded (the claim says
`CompensateEnd` is appended only for a successful compensation). -/
theorem compensate_failure_counterexample :
    c2res.map (fun s => s.trace) =
      some [.compCall "b" [], .compCall "b" [], .compCall "a" [], .compCall "a" []]
    ∧ c2res.map (fun s => (s.storage.data.filter (fun e =>
        decide (e.type = LogType.CompensateEnd ∧ e.subTxID = "b"))).length) = some 2 :=
  ⟨by decide, by decide⟩

/-- Claim C2 (amended): when a compensation reports failure during `Abort`'s
reverse replay, the nested `Abort` is invoked over the entire log history
read afresh — every `ActionStart` entry of the log at that point, including
already-compensated ones, gets a fresh compensation call — and a
`CompensateEnd` entry is appended unconditionally as the last log entry of
the `compensate` step, even though this compensation failed. -/
theorem compensate_failure_renests_full_history {C V W : Type}
    (sec : ExecutionCoordinator C V W) (ctx : C) (fuel : Nat)
    (s : SagaState V W) (tlog : Log V) (d : SubTxDef C V W) (s' : SagaState V W)
    (hd : MustFindSubTxDef sec tlog.subTxID = some d)
    (hfail : isReturnError
      (d.compensate ctx (UnmarshalParam sec tlog.params) s.world).fst = true)
    (h : compensate sec ctx (fun s0 => Abort sec ctx fuel s0) s tlog = some s') :
    (∃ tm, s'.storage.data.getLast? =
      some { type := .CompensateEnd, subTxID := tlog.subTxID, time := tm, params := [] })
    ∧ (∀ e ∈ s.storage.data, e.type = .ActionStart →
        Event.compCall e.subTxID (UnmarshalParam sec e.params) ∈ s'.trace) := by
  unfold compensate at h
  simp only [hd] at h
  split at h
  · split at h
    · exact absurd h (by simp)
    · rename_i s4 hab4
      cases h
      constructor
      · exact ⟨s4.clock, by simp⟩
      · intro e he ht
        have he3 : e ∈ ({ recordEvent (appendEntry s
            { type := .CompensateStart, subTxID := tlog.subTxID, time := s.clock, params := [] })
            (Event.compCall tlog.subTxID (UnmarshalParam sec tlog.params)) with
              world := (d.compensate ctx (UnmarshalParam sec tlog.params)
                (recordEvent (appendEntry s
                  { type := .CompensateStart, subTxID := tlog.subTxID, time := s.clock,
                    params := [] })
                  (Event.compCall tlog.subTxID (UnmarshalParam sec tlog.params))).world).snd
            } : SagaState V W).storage.data := by
          simp [he]
        have hrec := Abort_records sec ctx fuel _ s4 hab4 e he3 ht
        simpa using hrec
  · rename_i hc
    exfalso
    apply hc
    simpa using hfail

/-- Claim C2 (amended) witness: running `compensate` on `c2wIn` for its
`ActionStart "b"` entry, whose compensation fails at world `0`, yields
`c2wOut`: the last log entry is `CompensateEnd "b"` despite the failure, and
every `ActionStart` entry of `c2wIn` has a compensation call in the trace. -/
theorem compensate_failure_renests_full_history_witness :
    MustFindSubTxDef secFlaky "b" = some bFlakyDef
    ∧ isReturnError
        (bFlakyDef.compensate () (UnmarshalParam secFlaky c2wLog.params) c2wIn.world).fst = true
    ∧ compensate secFlaky () (fun s0 => Abort secFlaky () 3 s0) c2wIn c2wLog = some c2wOut
    ∧ ((∃ tm, c2wOut.storage.data.getLast? =
          some { type := .CompensateEnd, subTxID := c2wLog.subTxID, time := tm, params := [] })
      ∧ (∀ e ∈ c2wIn.storage.data, e.type = .ActionStart →
          Event.compCall e.subTxID (UnmarshalParam secFlaky e.params) ∈ c2wOut.trace)) :=
  ⟨rfl, rfl, by decide,
    compensate_failure_renests_full_history secFlaky () 3 c2wIn c2wLog bFlakyDef c2wOut
      rfl rfl (by decide)⟩

end GoSaga
